import Mathlib

/-!
Verification development for the conversational todo-list backend
(`backend/app/api/routes/chat.py`).

The file embeds, as executable Lean definitions, the pieces of the code the
specification's claims are about:

* the lexical/reference resolvers (`_extract_all_ints`,
  `_extract_ranges_and_lists`, `_extract_ordinal_refs`, `_split_multi_items`,
  `_human_list`);
* the fast intent parser `parse_intent_fast` (the full fixed-priority rule
  cascade, including every regular expression it uses);
* the local-numbering helpers (`_get_user_todos`,
  `_resolve_local_to_db_id`, `_resolve_many_local_to_db_ids`,
  `_ordinal_to_local_no`);
* the Gemini fallback adapter (`gemini_to_action`, `normalize_ai`) and the
  fallback dispatch performed by the `/chat/message` route (`send_message`).

Python regular expressions are embedded via a small total backtracking
matcher over an explicit pattern AST (`Rx`), reproducing Python `re`
semantics for the constructs the code uses: left-to-right leftmost search,
ordered alternation, greedy `+`/`*`/`?` over character classes, the lazy
`(.+?)` and greedy `(.+)` wildcards, word boundaries `\b`, and `$`.
`parse_intent_fast` first collapses every whitespace run of its input to a
single space, so within the parser `.` (any char except newline) and `\s`
(which then only ever sees a plain space) behave exactly as modelled.
-/

/-! ### Character classes and basic text utilities -/

/-- Python `\w` (ASCII): letters, digits and underscore. -/
def isWordChar (c : Char) : Bool := c.isAlphanum || c == '_'

/-- Python `\s` (ASCII): space, tab, newline, carriage return, form feed,
vertical tab. -/
def isPySpace (c : Char) : Bool :=
  c == ' ' || c == '\t' || c == '\n' || c == '\r' || c == '\x0b' || c == '\x0c'

/-- Lower-case a character sequence (Python `str.lower` on ASCII input). -/
def lowerL (s : List Char) : List Char := s.map Char.toLower

/-- Python `str.strip()`: remove whitespace from both ends. -/
def stripWsL (s : List Char) : List Char :=
  ((s.dropWhile isPySpace).reverse.dropWhile isPySpace).reverse

/-- Python `str.strip(set)`: remove characters of `set` from both ends. -/
def stripSetL (set : List Char) (s : List Char) : List Char :=
  ((s.dropWhile (set.contains ·)).reverse.dropWhile (set.contains ·)).reverse

/-- Collapse every whitespace run to a single space
(`re.sub(r"\s+", " ", ·)`); `prevSp` records whether the previous character
was part of a whitespace run. -/
def collapseWsGo : Bool → List Char → List Char
  | _, [] => []
  | prevSp, c :: r =>
    if isPySpace c then
      if prevSp then collapseWsGo true r else ' ' :: collapseWsGo true r
    else c :: collapseWsGo false r

def collapseWs (s : List Char) : List Char := collapseWsGo false s

/-- The normalisation performed at the top of `parse_intent_fast`:
`re.sub(r"\s+", " ", text.strip())`. -/
def normRaw (s : String) : List Char := collapseWs (stripWsL s.toList)

/-- Boolean substring containment. -/
def containsSub : List Char → List Char → Bool
  | hay, needle =>
    if needle.isPrefixOf hay then true
    else match hay with
      | [] => false
      | _ :: r => containsSub r needle

/-- `t` contains some element of `ks` as a substring
(Python `any(k in t for k in ks)`). -/
def containsAny (t : List Char) (ks : List (List Char)) : Bool :=
  ks.any (containsSub t ·)

/-- `t` starts with some element of `ps` (Python `t.startswith(tuple)`). -/
def startsWithAny (t : List Char) (ps : List (List Char)) : Bool :=
  ps.any (·.isPrefixOf t)

/-- Decimal digits to a number (Python `int` on a digit string). -/
def digitsToNat (s : List Char) : Nat :=
  s.foldl (fun acc c => 10 * acc + (c.toNat - '0'.toNat)) 0

/-- Python truthiness of an optional string (`None` and `""` are falsy). -/
def strTruthy : Option String → Bool
  | none => false
  | some s => s ≠ ""

/-- Python `x or ""` for an optional string. -/
def orEmpty (o : Option String) : String :=
  if strTruthy o then o.getD "" else ""

/-! ### A total backtracking regex engine

`Rx` is the pattern AST; `Rx.mrec` is a CPS matcher that reproduces Python
`re` backtracking order for the constructs used by `chat.py`. -/

/-- Character classes appearing in the code's regexes. -/
inductive CC where
  | digitC   -- `\d`
  | spaceC   -- `\s`
  | quoteC   -- `['\"]`
  | quoteSpC -- `[' ]`
  | anyC     -- `.` (anything but newline)
deriving DecidableEq, Repr

def CC.memc : CC → Char → Bool
  | .digitC, c => c.isDigit
  | .spaceC, c => isPySpace c
  | .quoteC, c => c == '\'' || c == '"'
  | .quoteSpC, c => c == '\'' || c == ' '
  | .anyC, c => !(c == '\n')

/-- Regex AST. Literals match case-insensitively (the code lower-cases its
text or compiles with `re.I`; every literal in its patterns is lower-case). -/
inductive Rx where
  | eps
  | lit (s : String)
  | cls (c : CC)
  | plusG (c : CC)       -- greedy `+` over a class
  | starG (c : CC)       -- greedy `*` over a class
  | lazyPlusAny          -- `(.+?)`-style lazy any-char `+`
  | plusAnyG             -- `(.+)`-style greedy any-char `+`
  | optR (a : Rx)        -- greedy `?`
  | seq (a b : Rx)
  | alt (a b : Rx)
  | grp (n : Nat) (a : Rx)
  | bnd                  -- `\b`
  | eos                  -- `$`
deriving Repr

/-- Capture environment: group number to captured characters. -/
def REnv := List (Nat × List Char)

def REnv.grp (e : REnv) (n : Nat) : Option (List Char) :=
  (List.find? (fun p => p.1 == n) e).map (·.2)

/-- `\b`: the previous and next characters disagree on word-char-ness. -/
def isBoundaryAt (prev : Option Char) (s : List Char) : Bool :=
  let pw := match prev with | some c => isWordChar c | none => false
  let nw := match s with | c :: _ => isWordChar c | [] => false
  pw != nw

/-- Case-insensitively consume a literal; returns the rest and the last
consumed character. -/
def consumeCI : List Char → List Char → Option (List Char × Option Char)
  | [], s => some (s, none)
  | _ :: _, [] => none
  | c :: cs, a :: r =>
    if c.toLower == a.toLower then
      match consumeCI cs r with
      | some (rest, lastc) => some (rest, some (lastc.getD a))
      | none => none
    else none

/-- All states reachable by consuming 0, 1, 2, … characters of class `c`,
in ascending order of consumed length: `(rest, previous character)`. -/
def repStates (c : CC) : List Char → Option Char → List (List Char × Option Char)
  | s, p =>
    (s, p) :: (match s with
      | a :: r => if c.memc a then repStates c r (some a) else []
      | [] => [])

/-- The CPS matcher. `k` receives the rest of the text, the new previous
character, and the capture environment. Backtracking order matches Python:
alternation is left-first, greedy repetition tries longest first, lazy
repetition shortest first. -/
def Rx.mrec {σ : Type} : Rx → List Char → Option Char → REnv →
    (List Char → Option Char → REnv → Option σ) → Option σ
  | .eps, s, p, e, k => k s p e
  | .lit str, s, p, e, k =>
    match consumeCI str.toList s with
    | some (rest, lastc) => k rest (match lastc with | some c => some c | none => p) e
    | none => none
  | .cls c, s, _, e, k =>
    match s with
    | [] => none
    | a :: r => if c.memc a then k r (some a) e else none
  | .plusG c, s, p, e, k =>
    (((repStates c s p).drop 1).reverse).findSome? (fun sp => k sp.1 sp.2 e)
  | .starG c, s, p, e, k =>
    ((repStates c s p).reverse).findSome? (fun sp => k sp.1 sp.2 e)
  | .lazyPlusAny, s, p, e, k =>
    ((repStates CC.anyC s p).drop 1).findSome? (fun sp => k sp.1 sp.2 e)
  | .plusAnyG, s, p, e, k =>
    (((repStates CC.anyC s p).drop 1).reverse).findSome? (fun sp => k sp.1 sp.2 e)
  | .optR a, s, p, e, k =>
    match a.mrec s p e k with
    | some r => some r
    | none => k s p e
  | .seq a b, s, p, e, k => a.mrec s p e (fun s' p' e' => b.mrec s' p' e' k)
  | .alt a b, s, p, e, k =>
    match a.mrec s p e k with
    | some r => some r
    | none => b.mrec s p e k
  | .grp n a, s, p, e, k =>
    a.mrec s p e (fun s' p' e' =>
      k s' p' ((n, s.take (s.length - s'.length)) :: e'))
  | .bnd, s, p, e, k => if isBoundaryAt p s then k s p e else none
  | .eos, s, p, e, k => match s with | [] => k s p e | _ :: _ => none

/-- `re.search` scanning loop: try a match at each position, left to right.
On success returns the captures, the rest of the text after the match, and
the last character of the match. -/
def Rx.searchGo (r : Rx) : Option Char → List Char → Option (REnv × List Char × Option Char)
  | p, s =>
    match Rx.mrec r s p [] (fun s' p' e => some (e, s', p')) with
    | some res => some res
    | none =>
      match s with
      | [] => none
      | c :: rest => Rx.searchGo r (some c) rest

/-- `re.search`: captures of the leftmost match, if any. -/
def Rx.search (r : Rx) (s : List Char) : Option REnv :=
  (Rx.searchGo r none s).map (·.1)

/-- `re.findall` driver (fuelled; every pattern below consumes at least one
character per match, so fuel `length + 1` is exact). -/
def Rx.findallGo (r : Rx) : Nat → Option Char → List Char → List REnv
  | 0, _, _ => []
  | Nat.succ fuel, p, s =>
    match Rx.searchGo r p s with
    | none => []
    | some (e, rest, lastc) => e :: Rx.findallGo r fuel lastc rest

/-- `re.findall`: captures of every non-overlapping match, left to right. -/
def Rx.findall (r : Rx) (s : List Char) : List REnv :=
  Rx.findallGo r (s.length + 1) none s

/-- Sequence a list of patterns. -/
def Rx.seqs (l : List Rx) : Rx := l.foldr Rx.seq Rx.eps

/-- Ordered alternation of a list of patterns. -/
def Rx.alts : List Rx → Rx
  | [] => Rx.eps
  | [a] => a
  | a :: r => Rx.alt a (Rx.alts r)

/-- Captured group as a `String` (empty if the group is unset). -/
def grpStr (e : REnv) (n : Nat) : String := String.mk ((e.grp n).getD [])

/-! ### The code's regular expressions, transcribed

One definition per pattern occurring in `chat.py`; the doc comment of each
gives the original pattern verbatim. -/

def spP : Rx := Rx.plusG CC.spaceC                  -- `\s+`
def spS : Rx := Rx.starG CC.spaceC                  -- `\s*`
def qOpt : Rx := Rx.optR (Rx.cls CC.quoteC)         -- `['\"]?`
def litAlts (l : List String) : Rx := Rx.alts (l.map Rx.lit)
def todoTask : Rx := litAlts ["todo", "task"]       -- `(?:todo|task)`
def descWords : Rx := litAlts ["desc", "description", "details"]

/-- `\b(and|then)\s+(show|list)\b` (chaining detector). -/
def rxAndShow : Rx :=
  Rx.seqs [Rx.bnd, Rx.grp 1 (litAlts ["and", "then"]), spP,
    Rx.grp 2 (litAlts ["show", "list"]), Rx.bnd]

/-- `\b(?:todo|task)\s+(\d+)\s+is\s+(completed|done|finished|pending|incomplete|not done|undone)\b`. -/
def rxStatus : Rx :=
  Rx.seqs [Rx.bnd, todoTask, spP, Rx.grp 1 (Rx.plusG CC.digitC), spP,
    Rx.lit "is", spP,
    Rx.grp 2 (litAlts ["completed", "done", "finished", "pending",
      "incomplete", "not done", "undone"]), Rx.bnd]

/-- `\b(i[' ]?ve|i have|i)\s+(completed|done with|finished)\s+(?:todo|task)\s+(\d+)\b`. -/
def rxStatus2 : Rx :=
  Rx.seqs [Rx.bnd,
    Rx.grp 1 (Rx.alts [Rx.seqs [Rx.lit "i", Rx.optR (Rx.cls CC.quoteSpC), Rx.lit "ve"],
      Rx.lit "i have", Rx.lit "i"]),
    spP, Rx.grp 2 (litAlts ["completed", "done with", "finished"]),
    spP, todoTask, spP, Rx.grp 3 (Rx.plusG CC.digitC), Rx.bnd]

/-- `\bshow\s+(?:todo|task)\s+(?:number\s+)?(\d+)\b`. -/
def rxShowOne : Rx :=
  Rx.seqs [Rx.bnd, Rx.lit "show", spP, todoTask, spP,
    Rx.optR (Rx.seqs [Rx.lit "number", spP]), Rx.grp 1 (Rx.plusG CC.digitC), Rx.bnd]

/-- `\bshow\s+first\s+(\d+)\s+(?:todos|tasks)\b`. -/
def rxFirstN : Rx :=
  Rx.seqs [Rx.bnd, Rx.lit "show", spP, Rx.lit "first", spP,
    Rx.grp 1 (Rx.plusG CC.digitC), spP, litAlts ["todos", "tasks"], Rx.bnd]

/-- `(?:title)\s*(?:is|=|:)?\s*['\"]?(.+?)['\"]?\??$` (which-todo rule). -/
def rxTitleIsQ : Rx :=
  Rx.seqs [Rx.lit "title", spS, Rx.optR (litAlts ["is", "=", ":"]), spS, qOpt,
    Rx.grp 1 Rx.lazyPlusAny, qOpt, Rx.optR (Rx.lit "?"), Rx.eos]

/-- `(?:desc|description|details)\s*(?:is|=|:)?\s*['\"]?(.+?)['\"]?\??$`. -/
def rxDescIsQ : Rx :=
  Rx.seqs [descWords, spS, Rx.optR (litAlts ["is", "=", ":"]), spS, qOpt,
    Rx.grp 1 Rx.lazyPlusAny, qOpt, Rx.optR (Rx.lit "?"), Rx.eos]

/-- `(?:which\s+(?:todo|task))\s+(?:has|contains|include|mentions)\s+['\"]?(.+?)['\"]?\??$`. -/
def rxWhichHas : Rx :=
  Rx.seqs [Rx.lit "which", spP, todoTask, spP,
    litAlts ["has", "contains", "include", "mentions"], spP, qOpt,
    Rx.grp 1 Rx.lazyPlusAny, qOpt, Rx.optR (Rx.lit "?"), Rx.eos]

/-- `(?:find|search)\s+(?:todos?|tasks?)\s*(?:related to|with word|containing|that contain)?\s*['\"]?(.+?)['\"]?$`. -/
def rxFind : Rx :=
  Rx.seqs [litAlts ["find", "search"], spP,
    Rx.alts [Rx.seqs [Rx.lit "todo", Rx.optR (Rx.lit "s")],
             Rx.seqs [Rx.lit "task", Rx.optR (Rx.lit "s")]],
    spS, Rx.optR (litAlts ["related to", "with word", "containing", "that contain"]),
    spS, qOpt, Rx.grp 1 Rx.lazyPlusAny, qOpt, Rx.eos]

/-- `do i have any todos?\s+(?:for|about)\s+(.+)\??$`. -/
def rxDoIHave : Rx :=
  Rx.seqs [Rx.lit "do i have any todo", Rx.optR (Rx.lit "s"), spP,
    litAlts ["for", "about"], spP, Rx.grp 1 Rx.plusAnyG, Rx.optR (Rx.lit "?"), Rx.eos]

/-- `\badd\s+\d+\s+todos?\b(.+)$` (`_split_multi_items`). -/
def rxAddNTodos : Rx :=
  Rx.seqs [Rx.bnd, Rx.lit "add", spP, Rx.plusG CC.digitC, spP,
    Rx.lit "todo", Rx.optR (Rx.lit "s"), Rx.bnd, Rx.grp 1 Rx.plusAnyG, Rx.eos]

/-- `(?:title)\s*(?::|=|is|should be)\s*['\"]?(.+?)['\"]?(?:\s+(?:and\s+)?(?:desc|description|details)\s*(?::|=|is|should be)\s*|$)` (add rule). -/
def rxTitleAdd : Rx :=
  Rx.seqs [Rx.lit "title", spS, litAlts [":", "=", "is", "should be"], spS, qOpt,
    Rx.grp 1 Rx.lazyPlusAny, qOpt,
    Rx.alts [Rx.seqs [spP, Rx.optR (Rx.seqs [Rx.lit "and", spP]), descWords,
      spS, litAlts [":", "=", "is", "should be"], spS], Rx.eos]]

/-- `(?:desc|description|details)\s*(?::|=|is|should be)\s*['\"]?(.+?)['\"]?$` (add rule). -/
def rxDescAdd : Rx :=
  Rx.seqs [descWords, spS, litAlts [":", "=", "is", "should be"], spS, qOpt,
    Rx.grp 1 Rx.lazyPlusAny, qOpt, Rx.eos]

/-- `remind me to\s+(.+)$`. -/
def rxRemind : Rx :=
  Rx.seqs [Rx.lit "remind me to", spP, Rx.grp 1 Rx.plusAnyG, Rx.eos]

/-- `(?:i need to|i have to)\s+(.+)$`. -/
def rxINeed : Rx :=
  Rx.seqs [litAlts ["i need to", "i have to"], spP, Rx.grp 1 Rx.plusAnyG, Rx.eos]

/-- `\badd\b\s+['\"]?(.+?)['\"]?(?:\s+to\s+my\s+todo\s+list)?$`. -/
def rxBareAdd : Rx :=
  Rx.seqs [Rx.bnd, Rx.lit "add", Rx.bnd, spP, qOpt, Rx.grp 1 Rx.lazyPlusAny, qOpt,
    Rx.optR (Rx.seqs [spP, Rx.lit "to", spP, Rx.lit "my", spP, Rx.lit "todo",
      spP, Rx.lit "list"]), Rx.eos]

/-- `\b(\d+)(st|nd|rd|th)\b` (`_extract_ordinal_refs`). -/
def rxOrdSuffix : Rx :=
  Rx.seqs [Rx.bnd, Rx.grp 1 (Rx.plusG CC.digitC),
    Rx.grp 2 (litAlts ["st", "nd", "rd", "th"]), Rx.bnd]

/-- `\b{k}\b` for the spelled-out ordinal words. -/
def rxWordBnd (w : String) : Rx := Rx.seqs [Rx.bnd, Rx.lit w, Rx.bnd]

/-- `\b(\d+)\s*(?:to|-)\s*(\d+)\b` (`_extract_ranges_and_lists`). -/
def rxRange : Rx :=
  Rx.seqs [Rx.bnd, Rx.grp 1 (Rx.plusG CC.digitC), spS, litAlts ["to", "-"], spS,
    Rx.grp 2 (Rx.plusG CC.digitC), Rx.bnd]

/-- `\b(\d+)\b` (`_extract_all_ints`). -/
def rxInt : Rx := Rx.seqs [Rx.bnd, Rx.grp 1 (Rx.plusG CC.digitC), Rx.bnd]

/-- `(?:delete|remove)\s+(?:the\s+)?(.+?)\s+(?:todo|task)\b` (delete rule). -/
def rxDelByText : Rx :=
  Rx.seqs [litAlts ["delete", "remove"], spP, Rx.optR (Rx.seqs [Rx.lit "the", spP]),
    Rx.grp 1 Rx.lazyPlusAny, spP, todoTask, Rx.bnd]

/-- `(?:add|set)\s+(?:this\s+)?(?:desc|description|details)\s*(?::|=)?\s*['\"]?(.+?)['\"]?\s+(?:to|for|in)\s+(?:todo|task)\s+(\d+)\b` (update rule). -/
def rxAddDesc : Rx :=
  Rx.seqs [litAlts ["add", "set"], spP, Rx.optR (Rx.seqs [Rx.lit "this", spP]),
    descWords, spS, Rx.optR (litAlts [":", "="]), spS, qOpt,
    Rx.grp 1 Rx.lazyPlusAny, qOpt, spP, litAlts ["to", "for", "in"], spP,
    todoTask, spP, Rx.grp 2 (Rx.plusG CC.digitC), Rx.bnd]

/-- `\b(?:and|,)\b` (`re.split` separator of the update rule). -/
def rxSplitSep : Rx := Rx.seqs [Rx.bnd, litAlts ["and", ","], Rx.bnd]

/-- `rename\s+(?:todo|task)?\s*\b(\d+)\b\s+(?:as|to)\s+['\"]?(.+?)['\"]?$` (update rule). -/
def rxRename : Rx :=
  Rx.seqs [Rx.lit "rename", spP, Rx.optR todoTask, spS, Rx.bnd,
    Rx.grp 1 (Rx.plusG CC.digitC), Rx.bnd, spP, litAlts ["as", "to"], spP, qOpt,
    Rx.grp 2 Rx.lazyPlusAny, qOpt, Rx.eos]

/-- `(?:title)\s*(?::|=|to|is|as|should be)\s*['\"]?(.+?)['\"]?(?:\s+(?:and\s+)?(?:desc|description|details)\b|$)` (update rule). -/
def rxTitleUpd : Rx :=
  Rx.seqs [Rx.lit "title", spS, litAlts [":", "=", "to", "is", "as", "should be"],
    spS, qOpt, Rx.grp 1 Rx.lazyPlusAny, qOpt,
    Rx.alts [Rx.seqs [spP, Rx.optR (Rx.seqs [Rx.lit "and", spP]), descWords, Rx.bnd],
      Rx.eos]]

/-- `(?:desc|description|details)\s*(?::|=|to|is|as|should be)\s*['\"]?(.+?)['\"]?$` (update rule). -/
def rxDescUpd : Rx :=
  Rx.seqs [descWords, spS, litAlts [":", "=", "to", "is", "as", "should be"],
    spS, qOpt, Rx.grp 1 Rx.lazyPlusAny, qOpt, Rx.eos]

/-! ### `re.split` -/

/-- Scan for the next match, accumulating the skipped prefix. -/
def Rx.searchSplit (r : Rx) : Option Char → List Char → List Char →
    Option (List Char × List Char × Option Char)
  | p, s, acc =>
    match Rx.mrec r s p [] (fun s' p' e => some (e, s', p')) with
    | some (_, rest, lastc) => some (acc.reverse, rest, lastc)
    | none =>
      match s with
      | [] => none
      | c :: rest => Rx.searchSplit r (some c) rest (c :: acc)

def reSplitGo (r : Rx) : Nat → Option Char → List Char → List (List Char)
  | 0, _, s => [s]
  | Nat.succ fuel, p, s =>
    match Rx.searchSplit r p s [] with
    | none => [s]
    | some (seg, rest, lastc) => seg :: reSplitGo r fuel lastc rest

/-- `re.split(pattern, s)` for a pattern without capture groups. -/
def reSplit (r : Rx) (s : List Char) : List (List Char) :=
  reSplitGo r (s.length + 1) none s

/-! ### Lexical/reference resolvers (`chat.py` parsing utilities) -/

/-- `_extract_all_ints`: `[int(x) for x in re.findall(r"\b(\d+)\b", text)]`. -/
def extractAllInts (text : List Char) : List Nat :=
  (rxInt.findall text).map (fun e => digitsToNat ((e.grp 1).getD []))

/-- Python `list(range(a, b + 1))`. -/
def rangeList (a b : Nat) : List Nat := List.range' a (b + 1 - a)

/-- `sorted(set(l))`. -/
def sortedSet (l : List Nat) : List Nat := List.insertionSort (· ≤ ·) l.dedup

/-- The `(A, B)` pairs matched by the range regex of
`_extract_ranges_and_lists` (which lower-cases its input first). -/
def rangePairsOf (text : List Char) : List (Nat × Nat) :=
  (rxRange.findall (lowerL text)).map
    (fun e => (digitsToNat ((e.grp 1).getD []), digitsToNat ((e.grp 2).getD [])))

/-- `range(start, end+1)` / `range(end, start+1)`: the inclusive integer
range of a matched pair, whichever way round it is written. -/
def expandRange (ab : Nat × Nat) : List Nat :=
  if ab.1 ≤ ab.2 then rangeList ab.1 ab.2 else rangeList ab.2 ab.1

/-- `_extract_ranges_and_lists`: expand every `"A to B"` / `"A-B"` range
(inclusive either way round), add every bare integer, and return
`sorted(set(...))`. -/
def extractRangesAndLists (text : List Char) : List Nat :=
  sortedSet (((rangePairsOf text).map expandRange).flatten
    ++ extractAllInts (lowerL text))

/-- `_extract_ordinal_refs`: relative references; negative = from the end. -/
def extractOrdinalRefs (text : List Char) : Option Int :=
  let t := stripWsL (lowerL text)
  if containsSub t "second last".toList || containsSub t "2nd last".toList ||
      containsSub t "second-last".toList then some (-2)
  else if containsSub t "last".toList || containsSub t "latest".toList then some (-1)
  else match rxOrdSuffix.search t with
    | some e => some (Int.ofNat (digitsToNat ((e.grp 1).getD [])))
    | none =>
      if ((rxWordBnd "first").search t).isSome then some 1
      else if ((rxWordBnd "second").search t).isSome then some 2
      else if ((rxWordBnd "third").search t).isSome then some 3
      else if ((rxWordBnd "fourth").search t).isSome then some 4
      else if ((rxWordBnd "fifth").search t).isSome then some 5
      else none

/-- Python truthiness of `_extract_ordinal_refs`'s result (`if ordref:`
treats `0` like `None`). -/
def ordTruthy : Option Int → Bool
  | some n => n ≠ 0
  | none => false

/-- The comma-list part of `_split_multi_items`:
`[p.strip(" '\"\n\t") for p in after.split(",") if p.strip()]`. -/
def listParts (after : List Char) : List String :=
  ((after.splitOn ',').filterMap (fun p =>
    if stripWsL p = ([] : List Char) then none
    else some (String.mk (stripSetL (' ' :: '\'' :: '"' :: '\n' :: '\t' :: []) p))))

/-- `_split_multi_items`. -/
def splitMultiItems (text : List Char) : List String :=
  if text.contains ':' then
    listParts (stripWsL ((text.dropWhile (fun c => !(c == ':'))).drop 1))
  else match rxAddNTodos.search text with
    | some e => listParts ((e.grp 1).getD [])
    | none => []

/-- `_human_list`: `"3"`, `"3 and 5"`, `"3, 5, and 7"` over `sorted(set(nums))`. -/
def humanList (nums : List Nat) : String :=
  let ns := sortedSet nums
  match ns with
  | [] => ""
  | [a] => toString a
  | [a, b] => toString a ++ " and " ++ toString b
  | _ => String.intercalate ", " (ns.dropLast.map toString) ++ ", and " ++
      (match ns.getLast? with | some x => toString x | none => "")

/-! ### Actions and payloads

`ParsedAction` is `(action, payload)` in the code; payloads are Python dicts
whose recognised keys depend on the action. `Payload` is a record of every
key the code ever stores; a key that is absent or stored as `None` is
modelled as `none`. -/

inductive Act where
  | add | add_many | list | count | summary | details | search
  | patch_many | complete_many | toggle_many | complete_all
  | delete_many | delete_by_ordinal | delete_by_text | delete_filtered
  | delete_all | group_by_status | clarify | unknown | status_by_ordinal
deriving DecidableEq, Repr

structure Payload where
  title : Option String := none
  description : Option String := none
  items : Option (List String) := none
  filter : Option String := none
  priority : Option String := none
  sort_by : Option String := none
  sort_dir : Option String := none
  limit : Option Nat := none
  local_nos : Option (List Int) := none
  ordinal : Option Int := none
  completed : Option Bool := none
  message : Option String := none
  query : Option String := none
  mode : Option String := none
deriving DecidableEq, Repr

abbrev Parsed := Act × Payload

/-- The chained trailing `list` action
`("list", {"filter": "all", "priority": None, ...})`. -/
def listAllAct : Parsed := (Act.list, { filter := some "all" })

/-- `wants_show_after`: `re.search(r"\b(and|then)\s+(show|list)\b", t)`. -/
def wantsShowAfter (t : List Char) : Bool := (rxAndShow.search t).isSome

/-- The `if wants_show_after: actions.append(("list", ...))` suffix. -/
def showTail (t : List Char) : List Parsed :=
  if wantsShowAfter t then [listAllAct] else []

/-- Captured group `n`, `.strip()`ped, as a `String`. -/
def grpStrip (e : REnv) (n : Nat) : String := String.mk (stripWsL ((e.grp n).getD []))

/-! ### The fast intent parser rule cascade

One definition per `if`/`return` block of `parse_intent_fast`, in source
order. Each takes the normalised original-case text `raw` and its
lower-casing `t` and returns `none` when the block's guard does not fire. -/

/-- `"todo 1 is completed/done/pending/…"`. -/
def ruleStatus1 (_raw t : List Char) : Option (List Parsed) :=
  match rxStatus.search t with
  | none => none
  | some e =>
    let n : Int := Int.ofNat (digitsToNat ((e.grp 1).getD []))
    let word := String.mk ((e.grp 2).getD [])
    let completed := !(["pending", "incomplete", "not done", "undone"].contains word)
    some ((Act.complete_many, { local_nos := some [n], completed := some completed }) :: showTail t)

/-- `"I've completed todo 3"`. -/
def ruleStatus2 (_raw t : List Char) : Option (List Parsed) :=
  match rxStatus2.search t with
  | none => none
  | some e =>
    let n : Int := Int.ofNat (digitsToNat ((e.grp 3).getD []))
    some ((Act.complete_many, { local_nos := some [n], completed := some true }) :: showTail t)

/-- Latest/last todo quick detail. -/
def ruleLatest (_raw t : List Char) : Option (List Parsed) :=
  if containsSub t "latest todo".toList || containsSub t "my latest todo".toList ||
      containsSub t "last todo".toList || containsSub t "my last todo".toList then
    some [(Act.details, { ordinal := some (-1) })]
  else none

/-- `"show todo (number) 3"`. -/
def ruleShowOne (_raw t : List Char) : Option (List Parsed) :=
  match rxShowOne.search t with
  | none => none
  | some e =>
    some [(Act.details, { local_nos := some [Int.ofNat (digitsToNat ((e.grp 1).getD []))] })]

/-- `"show first 5 todos"`. -/
def ruleFirstN (_raw t : List Char) : Option (List Parsed) :=
  match rxFirstN.search t with
  | none => none
  | some e =>
    let n := max 1 (digitsToNat ((e.grp 1).getD []))
    some [(Act.list, { filter := some "all", sort_by := some "created", sort_dir := some "asc", limit := some n })]

/-- `"which todo has title/description …?"`. -/
def ruleWhich (raw t : List Char) : Option (List Parsed) :=
  if containsAny t ["which todo".toList, "which task".toList] then some (
    match rxTitleIsQ.search raw with
    | some e => [(Act.search, { query := some (grpStrip e 1) })]
    | none =>
      match rxDescIsQ.search raw with
      | some e => [(Act.search, { query := some (grpStrip e 1) })]
      | none =>
        match rxWhichHas.search raw with
        | some e => [(Act.search, { query := some (grpStrip e 1) })]
        | none => [(Act.clarify, { message := some "What title/description should I look for?" })])
  else none

/-- Search / find. -/
def ruleFind (raw t : List Char) : Option (List Parsed) :=
  if startsWithAny t ["find".toList, "search".toList] ||
      containsSub t "do i have any todo".toList then some (
    let q1 := match rxFind.search raw with
      | some e => stripWsL ((e.grp 1).getD [])
      | none => []
    let q := if q1 = ([] : List Char) then
        (match rxDoIHave.search raw with
          | some e => stripWsL ((e.grp 1).getD [])
          | none => [])
      else q1
    [(Act.search, { query := some (String.mk q) })])
  else none

/-- Delete all / clear. -/
def ruleDeleteAll (_raw t : List Char) : Option (List Parsed) :=
  if containsAny t ["delete all".toList, "clear my todo".toList,
      "clear my list".toList, "remove everything".toList,
      "delete everything".toList] then
    some [(Act.delete_all, {})]
  else none

/-- Delete filtered (completed/pending). -/
def ruleDeleteFiltered (_raw t : List Char) : Option (List Parsed) :=
  if containsSub t "delete all completed".toList ||
      containsSub t "delete completed".toList then
    some [(Act.delete_filtered, { filter := some "completed" })]
  else if containsSub t "delete all pending".toList ||
      containsSub t "delete pending".toList then
    some [(Act.delete_filtered, { filter := some "pending" })]
  else none

/-- Count / total. -/
def ruleCount (_raw t : List Char) : Option (List Parsed) :=
  if containsAny t ["how many".toList, "count".toList, "total".toList] &&
      containsAny t ["todo".toList, "todos".toList, "task".toList, "tasks".toList] then
    some (
      if containsSub t "completed".toList || containsSub t "done".toList then
        [(Act.count, { filter := some "completed" })]
      else if containsSub t "pending".toList || containsSub t "incomplete".toList then
        [(Act.count, { filter := some "pending" })]
      else [(Act.count, { filter := some "all" })])
  else none

/-- Summary. -/
def ruleSummary (_raw t : List Char) : Option (List Parsed) :=
  if containsSub t "summary".toList &&
      containsAny t ["todo".toList, "todos".toList, "task".toList, "tasks".toList] then
    some [(Act.summary, {})]
  else none

/-- Details (extra). -/
def ruleDetails (_raw t : List Char) : Option (List Parsed) :=
  if startsWithAny t ["show details".toList, "details of".toList,
      "what is todo".toList, "what is task".toList] ||
      containsSub t "which todo is number".toList then some (
    let nums := extractRangesAndLists t
    if nums ≠ [] then
      [(Act.details, { local_nos := some (nums.map Int.ofNat) })]
    else
      let o := extractOrdinalRefs t
      if ordTruthy o then [(Act.details, { ordinal := some (o.getD 0) })]
      else [(Act.clarify, { message := some "Which todo number do you want details for?" })])
  else none

/-- The write verbs that exclude the list/show rule. -/
def writeVerbs : List (List Char) :=
  ["add".toList, "create".toList, "make".toList, "delete".toList,
   "remove".toList, "update".toList, "patch".toList, "edit".toList,
   "change".toList, "mark".toList, "toggle".toList, "complete".toList,
   "uncomplete".toList, "reopen".toList, "rename".toList]

/-- List / view with filters (excluded when the message starts with a write
verb). -/
def ruleListShow (_raw t : List Char) : Option (List Parsed) :=
  if containsAny t ["show".toList, "list".toList, "what do i have to do".toList,
      "my todo list".toList, "my todos".toList, "todo list".toList,
      "do i have any tasks".toList, "what’s on my list".toList,
      "what's on my list".toList, "anything pending".toList,
      "anything left".toList] &&
      !(startsWithAny t writeVerbs) then some (
    let flt := if containsSub t "completed".toList || containsSub t "done".toList then
        "completed"
      else if containsSub t "pending".toList || containsSub t "incomplete".toList then
        "pending"
      else "all"
    let priority := if containsSub t "high priority".toList ||
        containsSub t "highest priority".toList then some "high" else none
    let sortPair : Option String × Option String :=
      if containsSub t "sort".toList then
        (some (if containsSub t "priority".toList then "priority"
          else if containsSub t "status".toList then "status" else "created"),
         some (if containsSub t "descending".toList || containsSub t "desc".toList
          then "desc" else "asc"))
      else (none, none)
    [(Act.list, { filter := some flt, priority := priority, sort_by := sortPair.1, sort_dir := sortPair.2 })])
  else none

/-- Add / create. -/
def ruleAdd (raw t : List Char) : Option (List Parsed) :=
  if startsWithAny t ["add".toList, "create".toList, "make".toList] ||
      containsAny t ["remind me to".toList, "i need to".toList,
        "i have to".toList, "put".toList, "add ".toList] then some (
    let multi := splitMultiItems raw
    if multi ≠ [] then
      (Act.add_many, { items := some multi }) :: showTail t
    else
      let title1 : Option String := (rxTitleAdd.search raw).map (fun e => grpStrip e 1)
      let descr : Option String := (rxDescAdd.search raw).map (fun e => grpStrip e 1)
      let title2 := if strTruthy title1 then title1 else
        match rxRemind.search raw with
        | some e => some (grpStrip e 1)
        | none => title1
      let title3 := if !(strTruthy title2) &&
          containsAny t ["i need to".toList, "i have to".toList] then
        match rxINeed.search raw with
        | some e => some (grpStrip e 1)
        | none => title2
        else title2
      let title4 := if !(strTruthy title3) && containsSub t "add".toList then
        (if raw.contains ':' then
          some (String.mk (stripSetL ['\'', '"']
            (stripWsL ((raw.dropWhile (fun c => !(c == ':'))).drop 1))))
        else match rxBareAdd.search raw with
          | some e => some (String.mk (stripSetL ['\'', '"']
              (stripWsL ((e.grp 1).getD []))))
          | none => title3)
        else title3
      (Act.add, { title := some (orEmpty title4), description := descr })
        :: showTail t)
  else none

/-- Mark / complete / toggle / reopen. -/
def ruleMark (_raw t : List Char) : Option (List Parsed) :=
  if startsWithAny t ["mark".toList, "complete".toList, "uncomplete".toList,
      "incomplete".toList, "reopen".toList, "toggle".toList] ||
      containsSub t "mark all todos as completed".toList then some (
    if containsSub t "mark all".toList &&
        (containsSub t "completed".toList || containsSub t "done".toList) then
      [(Act.complete_all, { completed := some true })]
    else if containsSub t "mark all".toList &&
        (containsSub t "pending".toList || containsSub t "incomplete".toList ||
         containsSub t "reopen".toList) then
      [(Act.complete_all, { completed := some false })]
    else
      let nos := extractRangesAndLists t
      if nos = [] then
        let o := extractOrdinalRefs t
        if ordTruthy o then
          [(Act.status_by_ordinal, { ordinal := some (o.getD 0), mode := some (if "toggle".toList.isPrefixOf t then "toggle" else "set") })]
        else [(Act.clarify, { message := some "Which todo do you want to mark done/undone?" })]
      else if "toggle".toList.isPrefixOf t then
        [(Act.toggle_many, { local_nos := some (nos.map Int.ofNat) })]
      else if containsSub t "reopen".toList || containsSub t "uncomplete".toList ||
          containsSub t "incomplete".toList then
        [(Act.complete_many, { local_nos := some (nos.map Int.ofNat), completed := some false })]
      else
        [(Act.complete_many, { local_nos := some (nos.map Int.ofNat), completed := some true })])
  else none

/-- Delete / remove. -/
def ruleDelete (raw t : List Char) : Option (List Parsed) :=
  if startsWithAny t ["delete".toList, "remove".toList] then some (
    let nums := extractRangesAndLists t
    if nums ≠ [] then
      (Act.delete_many, { local_nos := some (nums.map Int.ofNat) }) :: showTail t
    else
      let o := extractOrdinalRefs t
      if ordTruthy o then
        (Act.delete_by_ordinal, { ordinal := some (o.getD 0) }) :: showTail t
      else match rxDelByText.search raw with
        | some e => (Act.delete_by_text, { query := some (grpStrip e 1) }) :: showTail t
        | none => [(Act.clarify, { message := some "Which todo number do you want to delete? Example: Delete todo 3" })])
  else none

/-- One segment of the update rule's `"and"`/comma split. -/
def updSegAction (seg : List Char) : Option Parsed :=
  let segT := stripWsL seg
  if segT = ([] : List Char) then none
  else
    let segLower := lowerL segT
    let segNums := extractRangesAndLists segLower
    if segNums = [] then none
    else if containsSub segLower "status".toList ||
        containsSub segLower "completed".toList ||
        containsSub segLower "done".toList ||
        containsSub segLower "reopen".toList then
      let completed := !(containsSub segLower "reopen".toList ||
        containsSub segLower "pending".toList ||
        containsSub segLower "incomplete".toList)
      some (Act.complete_many, { local_nos := some (segNums.map Int.ofNat), completed := some completed })
    else
      let title0 : Option String := (rxTitleUpd.search segT).map (fun e => grpStrip e 1)
      let descr : Option String := (rxDescUpd.search segT).map (fun e => grpStrip e 1)
      let numsTitle : List Int × Option String :=
        if title0 = none && "rename".toList.isPrefixOf (stripWsL segLower) then
          match rxRename.search segT with
          | some e => ([Int.ofNat (digitsToNat ((e.grp 1).getD []))], some (grpStrip e 2))
          | none => (segNums.map Int.ofNat, title0)
        else (segNums.map Int.ofNat, title0)
      some (Act.patch_many, { local_nos := some numsTitle.1, title := numsTitle.2, description := descr, completed := none })

/-- Update / patch / rename. -/
def ruleUpdate (raw t : List Char) : Option (List Parsed) :=
  if startsWithAny t ["update".toList, "patch".toList, "edit".toList,
      "change".toList, "rename".toList] then some (
    match rxAddDesc.search raw with
    | some e =>
      [(Act.patch_many, { local_nos := some [Int.ofNat (digitsToNat ((e.grp 2).getD []))], title := none, description := some (grpStrip e 1), completed := none })]
    | none =>
      let segActions := (reSplit rxSplitSep raw).filterMap updSegAction
      if segActions ≠ [] then segActions
      else
        let localNos := extractRangesAndLists t
        if localNos = [] then
          if ordTruthy (extractOrdinalRefs t) then
            [(Act.clarify, { message := some "Which fields should I update for that todo? (title / description / status)" })]
          else
            [(Act.clarify, { message := some "Which todo do you want to update? Example: Update todo 3 title to 'Buy vegetables'" })]
        else
          let title : Option String := (rxTitleUpd.search raw).map (fun e => grpStrip e 1)
          let descr : Option String := (rxDescUpd.search raw).map (fun e => grpStrip e 1)
          if descr = none && containsSub t "more details".toList then
            [(Act.clarify, { message := some ("What description should I set for todo(s) " ++ humanList localNos ++ "?") })]
          else
            [(Act.patch_many, { local_nos := some (localNos.map Int.ofNat), title := title, description := descr, completed := none })])
  else none

/-- Group by status. -/
def ruleGroup (_raw t : List Char) : Option (List Parsed) :=
  if containsSub t "group".toList && containsSub t "status".toList then
    some [(Act.group_by_status, {})]
  else none

/-- Undo (unsupported, always clarifies). -/
def ruleUndo (_raw t : List Char) : Option (List Parsed) :=
  if containsSub t "undo".toList then
    some [(Act.clarify, { message := some "Undo is not implemented yet. Tell me what to revert (e.g., 'reopen todo 3' or 'restore title of todo 2')." })]
  else none

/-- `parse_intent_fast`: the full fixed-priority cascade; the first rule
that fires wins, otherwise `[("unknown", {})]`. -/
def parse_intent_fast (s : String) : List Parsed :=
  let raw := normRaw s
  let t := lowerL raw
  (ruleStatus1 raw t <|> ruleStatus2 raw t <|> ruleLatest raw t <|>
   ruleShowOne raw t <|> ruleFirstN raw t <|> ruleWhich raw t <|>
   ruleFind raw t <|> ruleDeleteAll raw t <|> ruleDeleteFiltered raw t <|>
   ruleCount raw t <|> ruleSummary raw t <|> ruleDetails raw t <|>
   ruleListShow raw t <|> ruleAdd raw t <|> ruleMark raw t <|>
   ruleDelete raw t <|> ruleUpdate raw t <|> ruleGroup raw t <|>
   ruleUndo raw t).getD [(Act.unknown, {})]

/-! ### Storage model and local-numbering helpers

A `TodoR` is a stored todo row; the database is a `List TodoR` whose `id`s
are unique (SQL primary key). `getUserTodos` embeds `_get_user_todos`:
`SELECT ... WHERE user_id = ? ORDER BY id ASC`, i.e. filter then sort by
ascending id (`created_at` plays no role in local numbering; the code
orders by `id` only). -/

structure TodoR where
  id : Nat
  user_id : Nat
  title : String := ""
  description : Option String := none
  completed : Bool := false
deriving DecidableEq, Repr

/-- The ordering used by `ORDER BY Todo.id ASC`. -/
def idLe (a b : TodoR) : Prop := a.id ≤ b.id

instance : DecidableRel idLe := fun a b => Nat.decLe a.id b.id

/-- `_get_user_todos(session, user_id)`. -/
def getUserTodos (db : List TodoR) (uid : Nat) : List TodoR :=
  List.insertionSort idLe (db.filter (fun td => td.user_id == uid))

/-- `sorted(set(·))` over Python ints. -/
def sortedSetI (l : List Int) : List Int := List.insertionSort (· ≤ ·) l.dedup

/-- `_resolve_local_to_db_id(session, user_id, local_no)`. -/
def resolveLocalToDbId (db : List TodoR) (uid : Nat) (local_no : Option Int) : Option Nat :=
  match local_no with
  | none => none
  | some n =>
    if n ≤ 0 then none
    else
      let todos := getUserTodos db uid
      if n > todos.length then none
      else (todos.get? (n - 1).toNat).map (·.id)

/-- `_resolve_many_local_to_db_ids(session, user_id, local_nos)`: for each
`n` of `sorted(set(local_nos))`, keep `todos[n-1].id` when `1 <= n <= len`.
The todo list is re-fetched from the session on every call — resolution is
a function of the current database, never a cached mapping. -/
def resolveManyLocalToDbIds (db : List TodoR) (uid : Nat) (local_nos : List Int) : List Nat :=
  let todos := getUserTodos db uid
  (sortedSetI local_nos).filterMap (fun (n : Int) =>
    if 1 ≤ n ∧ n ≤ (todos.length : Int) then (todos.get? (n - 1).toNat).map (·.id) else none)

/-- `session.delete(todo)` for the row with id `tid` (primary-key delete). -/
def deleteById (db : List TodoR) (tid : Nat) : List TodoR :=
  db.filter (fun td => !(td.id == tid))

/-- `_ordinal_to_local_no(session, user_id, ordinal)`, which only depends on
`len(_get_user_todos(...))`; `n` is that count. -/
def ordinalToLocalNo (n : Nat) (ordinal : Int) : Option Int :=
  if n = 0 then none
  else if ordinal < 0 then
    let idx : Int := (n : Int) + ordinal
    if 0 ≤ idx ∧ idx < (n : Int) then some (idx + 1) else none
  else if 1 ≤ ordinal ∧ ordinal ≤ (n : Int) then some ordinal
  else none

/-- `_ordinal_to_local_no` as written (over the session). -/
def sessionOrdinalToLocalNo (db : List TodoR) (uid : Nat) (ordinal : Int) : Option Int :=
  ordinalToLocalNo (getUserTodos db uid).length ordinal

/-- The SQL `id` column is autoincrementing: a fresh row gets an id larger
than every existing one. -/
def nextId (db : List TodoR) : Nat := (db.map (·.id)).foldr max 0 + 1

/-- The `"add"` branch of `send_message`'s executor loop (lines 994–1012):
empty title → a reply asking for a title and no change; otherwise insert
and confirm with the new local number. -/
def execAddStep (uid : Nat) (pl : Payload) (db : List TodoR) : List TodoR × String :=
  let title := String.mk (stripWsL (orEmpty pl.title).toList)
  if title = "" then (db, "Please provide a title. Example: Add buy groceries")
  else
    let todo : TodoR := { id := nextId db, user_id := uid, title := title, description := pl.description, completed := false }
    let db' := db ++ [todo]
    let localNo := (getUserTodos db' uid).length
    (db', "✅ Added Todo " ++ toString localNo ++ "\nTitle: " ++ todo.title ++
      (match pl.description with
        | some d => if d ≠ "" then "\nDescription: " ++ d else ""
        | none => ""))

/-! ### The Gemini fallback adapter

`gemini_to_action` reads the API key from settings, raises
`HTTPException(500)` when it is falsy, performs the external
`generate_content` round-trip, strips markdown fences and JSON-decodes the
reply (a decode failure becomes `{"action": "unknown"}`).  The external
round-trip plus JSON decoding is modelled by a `CallOutcome` oracle:
`raises` = the service call raised any exception; `returns none` = the call
returned text whose fence-stripped form is not valid JSON; `returns (some j)`
= the reply decoded to the JSON value `j`.

On the pydantic `Settings` model `gemini_api_key : str` defaults to `""`
and there is no `GEMINI_API_KEY` attribute (so
`getattr(settings, "GEMINI_API_KEY", None)` is always `None`); hence
`api_key` is falsy exactly when `gemini_api_key = ""`. -/

inductive JVal where
  | s (v : String)
  | i (v : Int)
  | b (v : Bool)
  | null
  | arr (vs : List JVal)
  | obj (fields : List (String × JVal))
deriving Repr

/-- Python truthiness of a JSON value. -/
def JVal.truthy : JVal → Bool
  | .s v => v ≠ ""
  | .i v => v ≠ 0
  | .b v => v
  | .null => false
  | .arr vs => !vs.isEmpty
  | .obj fs => !fs.isEmpty

/-- `dict.get(k)` (first binding wins; JSON object keys are unique). -/
def dget (fs : List (String × JVal)) (k : String) : Option JVal :=
  (fs.find? (fun p => p.1 == k)).map (·.2)

structure SettingsM where
  gemini_api_key : String := ""
  gemini_model : String := "gemini-1.5-flash"

inductive CallOutcome where
  | raises
  | returns (decoded : Option JVal)

inductive GemErr where
  | missingKey   -- `HTTPException(500, "Gemini API key is missing ...")`
  | callFailed   -- an exception escaping the `generate_content` round-trip
deriving DecidableEq, Repr

/-- `gemini_to_action(user_text)` (the user text only feeds the oracle). -/
def gemini_to_action (st : SettingsM) (out : CallOutcome) : Except GemErr JVal :=
  if st.gemini_api_key = "" then .error .missingKey
  else match out with
    | .raises => .error .callFailed
    | .returns none => .ok (JVal.obj [("action", JVal.s "unknown")])
    | .returns (some j) => .ok j

/-- `(ai.get("action") or "unknown").lower()`: a falsy value (absent key,
`null`, `""`, …) becomes `"unknown"`; a truthy non-string would raise
`AttributeError` on `.lower()`. -/
def actOf (fields : List (String × JVal)) : Except Unit String :=
  match dget fields "action" with
  | some v =>
    if v.truthy then (match v with | .s s => Except.ok (String.mk (lowerL s.toList)) | _ => Except.error ())
    else Except.ok "unknown"
  | none => Except.ok "unknown"

/-- `ai.get(k) or []` followed by iteration: a truthy non-list raises
`TypeError` in the comprehension. -/
def getArrOrEmpty (v : Option JVal) : Except Unit (List JVal) :=
  match v with
  | none => .ok []
  | some x =>
    if x.truthy then (match x with | .arr l => .ok l | _ => .error ())
    else .ok []

/-- `ai.get("question") or "Can you clarify what you want to do?"`. -/
def getQuestion (v : Option JVal) : Except Unit String :=
  match v with
  | some x =>
    if x.truthy then (match x with | .s s => Except.ok s | _ => Except.error ())
    else Except.ok "Can you clarify what you want to do?"
  | none => Except.ok "Can you clarify what you want to do?"

/-- `ai.get(k) or ""` where a truthy value must be a string for the later
`.strip()`/storage to behave (a truthy non-string is modelled as a decode
failure, which the route's catch-all turns into `unknown`). -/
def getStrOrEmpty (v : Option JVal) : Except Unit String :=
  match v with
  | none => .ok ""
  | some x => if x.truthy then (match x with | .s s => .ok s | _ => .error ()) else .ok ""

/-- `ai.get(k)` stored into a string-or-none payload slot. -/
def getOptStr (v : Option JVal) : Except Unit (Option String) :=
  match v with
  | none => .ok none
  | some .null => .ok none
  | some (.s s) => .ok (some s)
  | some _ => .error ()

/-- `ai.get(k, dflt)`: the default applies only when the key is absent. -/
def getStrDefault (v : Option JVal) (dflt : String) : Except Unit (Option String) :=
  match v with
  | none => .ok (some dflt)
  | some .null => .ok none
  | some (.s s) => .ok (some s)
  | some _ => .error ()

/-- `ai.get(k)` stored into a bool-or-none payload slot. -/
def getOptBool (v : Option JVal) : Except Unit (Option Bool) :=
  match v with
  | none => .ok none
  | some .null => .ok none
  | some (.b b) => .ok (some b)
  | some _ => .error ()

/-- `[int(x) for x in ids if isinstance(x, int) and x > 0]` — note Python
`bool` is an `int` subtype, so `True` passes and contributes `1`. -/
def intsPos (l : List JVal) : List Int :=
  l.filterMap (fun x => match x with
    | .i n => if n > 0 then some n else none
    | .b true => some 1
    | _ => none)

/-- The `add_many` item loop: keep `it["title"].strip()` of every dict item
whose title is truthy. -/
def collectTitles : List JVal → Except Unit (List String)
  | [] => .ok []
  | it :: rest => do
    let tl ← collectTitles rest
    match it with
    | .obj ofs => do
      let t ← getStrOrEmpty (dget ofs "title")
      let t' := String.mk (stripWsL t.toList)
      if t' ≠ "" then return t' :: tl else return tl
    | _ => return tl

/-- The `update` op loop: one `patch_many` per dict op with an int `id`. -/
def collectOps : List JVal → Except Unit (List Parsed)
  | [] => .ok []
  | op :: rest => do
    let tl ← collectOps rest
    match op with
    | .obj ofs =>
      match dget ofs "id" with
      | some (.i tid) => do
        let ttl ← getOptStr (dget ofs "title")
        let dsc ← getOptStr (dget ofs "description")
        let cmp ← getOptBool (dget ofs "completed")
        return (Act.patch_many, { local_nos := some [tid], title := ttl, description := dsc, completed := cmp }) :: tl
      | some (.b bv) => do
        let ttl ← getOptStr (dget ofs "title")
        let dsc ← getOptStr (dget ofs "description")
        let cmp ← getOptBool (dget ofs "completed")
        return (Act.patch_many, { local_nos := some [if bv then (1 : Int) else 0], title := ttl, description := dsc, completed := cmp }) :: tl
      | _ => return tl
    | _ => return tl

/-- `normalize_ai(ai)`: map the external JSON shape onto the fast parser's
action schema. A Python `TypeError`/`AttributeError` on an ill-shaped value
is the `Except.error` case (caught by the route's catch-all). -/
def normalize_ai (ai : JVal) : Except Unit (List Parsed) := do
  let fields ← match ai with
    | .obj fs => Except.ok fs
    | _ => Except.error ()
  let act ← actOf fields
  if act = "add" then
    let title ← getStrOrEmpty (dget fields "title")
    let descr ← getOptStr (dget fields "description")
    return [(Act.add, { title := some title, description := descr })]
  else if act = "add_many" then
    let items ← getArrOrEmpty (dget fields "items")
    let titles ← collectTitles items
    if titles ≠ [] then return [(Act.add_many, { items := some titles })]
    else return [(Act.clarify, { message := some "What todos should I add?" })]
  else if act = "list" then
    let flt ← getStrDefault (dget fields "filter") "all"
    let pr ← getOptStr (dget fields "priority")
    let sb ← getOptStr (dget fields "sort_by")
    let sd ← getOptStr (dget fields "sort_dir")
    return [(Act.list, { filter := flt, priority := pr, sort_by := sb, sort_dir := sd })]
  else if act = "count" then
    let flt ← getStrDefault (dget fields "filter") "all"
    return [(Act.count, { filter := flt })]
  else if act = "summary" then
    return [(Act.summary, {})]
  else if act = "details" then
    match dget fields "ids" with
    | some (.arr l) =>
      if !l.isEmpty then return [(Act.details, { local_nos := some (intsPos l) })]
      else return [(Act.clarify, { message := some "Which todo number do you want details for?" })]
    | _ => return [(Act.clarify, { message := some "Which todo number do you want details for?" })]
  else if act = "update" then
    let ops ← getArrOrEmpty (dget fields "ops")
    let parsed ← collectOps ops
    if parsed ≠ [] then return parsed
    else return [(Act.clarify, { message := some "Which todo do you want to update?" })]
  else if act = "complete_all" then
    let c := match dget fields "completed" with
      | none => true
      | some v => v.truthy
    return [(Act.complete_all, { completed := some c })]
  else if act = "delete" then
    let ids ← getArrOrEmpty (dget fields "ids")
    let ids2 := intsPos ids
    if ids2 ≠ [] then return [(Act.delete_many, { local_nos := some ids2 })]
    else return [(Act.clarify, { message := some "Which todo number do you want to delete?" })]
  else if act = "delete_all" then
    return [(Act.delete_all, {})]
  else if act = "delete_filtered" then
    let flt ← getStrDefault (dget fields "filter") "completed"
    return [(Act.delete_filtered, { filter := flt })]
  else if act = "search" then
    let q ← getStrOrEmpty (dget fields "query")
    return [(Act.search, { query := some q })]
  else if act = "clarify" then
    let m ← getQuestion (dget fields "question")
    return [(Act.clarify, { message := some m })]
  else
    return [(Act.unknown, {})]

/-- `len(actions) == 1 and actions[0][0] == "unknown"`. -/
def soleUnknown (l : List Parsed) : Bool :=
  match l with
  | [(Act.unknown, _)] => true
  | _ => false

/-- The fallback dispatch of `send_message` (lines 977–986): run the fast
parser; only when its sole output is `unknown`, call the Gemini adapter and
normalise its reply, turning **any** exception (including the missing-key
`HTTPException`) into `[("unknown", {})]` via the `try/except Exception`
around the whole fallback. -/
def sendActions (fast : List Parsed) (st : SettingsM) (out : CallOutcome) : List Parsed :=
  if soleUnknown fast then
    match gemini_to_action st out with
    | .error _ => [(Act.unknown, {})]
    | .ok j =>
      match normalize_ai j with
      | .error _ => [(Act.unknown, {})]
      | .ok acts => acts
  else fast

/-! ### Claim C5 — ordinal resolution -/

/-- **C5.** For every todo count `N ≥ 0`: a negative ordinal `o` resolves to
local number `N + o + 1` when that value lies in `[1, N]` and to nothing
otherwise; a positive ordinal `o` resolves to itself when `1 ≤ o ≤ N` and to
nothing otherwise; in particular ordinal `-1` resolves to `N` when `N > 0`
and to nothing when `N = 0`. -/
theorem c5_ordinal_resolution (N : Nat) (o : Int) :
    (o < 0 → ordinalToLocalNo N o =
      (if 1 ≤ (N : Int) + o + 1 ∧ (N : Int) + o + 1 ≤ (N : Int)
        then some ((N : Int) + o + 1) else none))
    ∧ (1 ≤ o → ordinalToLocalNo N o = (if o ≤ (N : Int) then some o else none))
    ∧ (ordinalToLocalNo N (-1) = (if 0 < N then some ((N : Int) + (-1) + 1) else none)) := by
  simp only [ordinalToLocalNo]
  refine ⟨fun hneg => ?_, fun hpos => ?_, ?_⟩ <;>
    · split_ifs <;> first
        | rfl
        | omega
        | (simp only [Option.some.injEq]; omega)

/-- Witness for C5 at `N = 3` with `o = -1` and `o = 2`. -/
theorem c5_witness :
    ((-1 : Int) < 0 ∧ ordinalToLocalNo 3 (-1) =
      (if 1 ≤ (3 : Int) + (-1) + 1 ∧ (3 : Int) + (-1) + 1 ≤ (3 : Int)
        then some ((3 : Int) + (-1) + 1) else none))
    ∧ ((1 : Int) ≤ 2 ∧ ordinalToLocalNo 3 2 = (if (2 : Int) ≤ (3 : Int) then some 2 else none)) :=
  ⟨⟨by decide, (c5_ordinal_resolution 3 (-1)).1 (by decide)⟩,
   ⟨by decide, (c5_ordinal_resolution 3 2).2.1 (by decide)⟩⟩

/-! ### Claim C1 — missing Gemini key (corrected) -/

/-- **C1, counterexample.** With the key setting absent (empty), the adapter
does raise the configuration error, but the chat endpoint's action
computation still yields the plain `unknown` action (which the executor
turns into the user-facing help reply): the error is swallowed by
`send_message`'s `try/except Exception`, not surfaced to the caller. -/
theorem c1_counterexample :
    gemini_to_action { gemini_api_key := "" }
        (CallOutcome.returns (some (JVal.obj []))) = Except.error GemErr.missingKey
    ∧ sendActions [(Act.unknown, {})] { gemini_api_key := "" }
        (CallOutcome.returns (some (JVal.obj []))) = [(Act.unknown, {})] :=
  ⟨rfl, rfl⟩

/-- **C1, amended.** If the Gemini API key setting is absent when the
fallback classifier is invoked, `gemini_to_action` raises a configuration
error (`HTTPException` 500), but `send_message`'s catch-all exception
handler swallows it and degrades to the single `unknown` action, so the
caller of the chat endpoint receives the normal help reply, not an error. -/
theorem c1_missing_key_swallowed (st : SettingsM) (out : CallOutcome)
    (fast : List Parsed) (hkey : st.gemini_api_key = "") :
    gemini_to_action st out = Except.error GemErr.missingKey
    ∧ (soleUnknown fast = true → sendActions fast st out = [(Act.unknown, {})]) := by
  constructor
  · simp [gemini_to_action, hkey]
  · intro h
    simp [sendActions, h, gemini_to_action, hkey]

/-- Witness for C1 at the empty-key settings and a raising call. -/
theorem c1_witness :
    (({ gemini_api_key := "" } : SettingsM).gemini_api_key = ""
      ∧ gemini_to_action { gemini_api_key := "" } CallOutcome.raises =
          Except.error GemErr.missingKey)
    ∧ (soleUnknown [(Act.unknown, {})] = true
      ∧ sendActions [(Act.unknown, {})] { gemini_api_key := "" } CallOutcome.raises =
          [(Act.unknown, {})]) :=
  ⟨⟨rfl, (c1_missing_key_swallowed { gemini_api_key := "" } CallOutcome.raises
      [(Act.unknown, {})] rfl).1⟩,
   ⟨by decide, (c1_missing_key_swallowed { gemini_api_key := "" } CallOutcome.raises
      [(Act.unknown, {})] rfl).2 (by decide)⟩⟩

/-! ### Claim C3 — fallback invocation and degradation -/

/-- **C3.** The fallback classifier is consulted iff the fast parser's
output is the single `unknown` action (otherwise the fast result is
returned untouched, whatever the external call would do), and any failure
of the external service call — an exception (network error) or a
non-JSON/malformed response — degrades to the single `unknown` action
instead of propagating an exception out of the message-handling path. -/
theorem c3_fallback_dispatch (fast : List Parsed) (st : SettingsM) (out : CallOutcome) :
    (soleUnknown fast = false → sendActions fast st out = fast)
    ∧ (soleUnknown fast = true → out = CallOutcome.raises →
        sendActions fast st out = [(Act.unknown, {})])
    ∧ (soleUnknown fast = true → out = CallOutcome.returns none →
        sendActions fast st out = [(Act.unknown, {})])
    ∧ (soleUnknown fast = true → ∀ j, out = CallOutcome.returns (some j) →
        st.gemini_api_key ≠ "" →
        sendActions fast st out =
          (match normalize_ai j with
            | .ok acts => acts
            | .error _ => [(Act.unknown, {})])) := by
  refine ⟨fun h => ?_, fun h hout => ?_, fun h hout => ?_, fun h j hout hk => ?_⟩
  · simp [sendActions, h]
  · subst hout
    by_cases hk : st.gemini_api_key = "" <;>
      simp [sendActions, h, gemini_to_action, hk]
  · subst hout
    by_cases hk : st.gemini_api_key = "" <;>
      simp [sendActions, h, gemini_to_action, hk] <;> decide
  · subst hout
    simp only [sendActions, h, if_true, gemini_to_action, hk, if_neg hk]
    cases hn : normalize_ai j <;> simp [hn]

/-- Witness for C3: sole-unknown fast result and a raising call. -/
theorem c3_witness :
    soleUnknown [(Act.unknown, {})] = true
    ∧ sendActions [(Act.unknown, {})] { gemini_api_key := "k" } CallOutcome.raises =
        [(Act.unknown, {})] :=
  ⟨by decide,
   (c3_fallback_dispatch [(Act.unknown, {})] { gemini_api_key := "k" }
      CallOutcome.raises).2.1 (by decide) rfl⟩

/-! ### Claim C4 — add with no extractable title (corrected) -/

/-- **C4, counterexample.** Parsing the bare message `"add"` yields an `add`
action (with empty title), not a `clarify` action. -/
theorem c4_counterexample :
    (parse_intent_fast "add").map Prod.fst = [Act.add] ∧ Act.add ≠ Act.clarify :=
  ⟨by decide, by decide⟩

/-- **C4, amended.** An add-intent message with no extractable title (the
bare `"add"`) parses to an `add` action with empty title — not to a
`clarify` action — and the executor's `add` branch answers it with a
non-empty reply requesting a title while leaving the store unchanged;
never a silent no-op. -/
theorem c4_empty_add_requests_title (db : List TodoR) (uid : Nat) :
    parse_intent_fast "add" = [(Act.add, { title := some "", description := none })]
    ∧ execAddStep uid { title := some "", description := none } db =
        (db, "Please provide a title. Example: Add buy groceries")
    ∧ ("Please provide a title. Example: Add buy groceries" : String) ≠ "" :=
  ⟨by decide, rfl, by decide⟩

/-! ### Claim C7 — delete-and-show chaining -/

/-- **C7.** Parsing `"Delete todo 2 and show remaining todos"` yields
exactly `[delete_many {local_nos: [2]}, list {filter: all}]`, in that
order: the delete rule fires and the `"and show"` clause appends the
trailing `list` action. -/
theorem c7_delete_and_show :
    parse_intent_fast "Delete todo 2 and show remaining todos" =
      [(Act.delete_many, { local_nos := some [2] }),
       (Act.list, { filter := some "all" })] := by
  decide

/-! ### Claim C2 — local numbering (supporting lemmas) -/

instance : IsTotal TodoR idLe := ⟨fun a b => Nat.le_total a.id b.id⟩

instance : IsTrans TodoR idLe := ⟨fun _ _ _ h1 h2 => Nat.le_trans h1 h2⟩

theorem orderedInsert_of_forall_le {a : TodoR} {l : List TodoR}
    (h : ∀ x ∈ l, idLe a x) : List.orderedInsert idLe a l = a :: l := by
  cases l with
  | nil => rfl
  | cons c m => exact List.orderedInsert_of_le idLe m (h c (by simp))

theorem filter_orderedInsert (p : TodoR → Bool) (a : TodoR) (l : List TodoR)
    (hl : l.Sorted idLe) :
    (List.orderedInsert idLe a l).filter p =
      if p a then List.orderedInsert idLe a (l.filter p) else l.filter p := by
  induction l with
  | nil =>
    by_cases hpa : p a <;> simp [List.orderedInsert, List.filter_cons, hpa]
  | cons b m ih =>
    obtain ⟨hbm, hm⟩ := List.sorted_cons.mp hl
    by_cases hab : idLe a b
    · rw [List.orderedInsert_of_le idLe m hab]
      by_cases hpa : p a
      · by_cases hpb : p b
        · simp [List.filter_cons, hpa, hpb, List.orderedInsert, hab]
        · have hfle : List.orderedInsert idLe a (List.filter p m) = a :: List.filter p m :=
            orderedInsert_of_forall_le
              (fun x hx => Trans.trans hab (hbm x (List.mem_of_mem_filter hx)))
          simp [List.filter_cons, hpa, hpb, hfle]
      · simp [List.filter_cons, hpa]
    · have hoi : List.orderedInsert idLe a (b :: m) = b :: List.orderedInsert idLe a m := by
        simp [List.orderedInsert, hab]
      rw [hoi]
      by_cases hpb : p b
      · by_cases hpa : p a <;>
          simp [List.filter_cons, hpa, hpb, ih hm, List.orderedInsert, hab]
      · by_cases hpa : p a <;> simp [List.filter_cons, hpa, hpb, ih hm]

theorem filter_insertionSort (p : TodoR → Bool) (l : List TodoR) :
    (List.insertionSort idLe l).filter p = List.insertionSort idLe (l.filter p) := by
  induction l with
  | nil => rfl
  | cons a m ih =>
    have hs : (List.insertionSort idLe m).Sorted idLe :=
      List.sorted_insertionSort idLe m
    simp only [List.insertionSort, List.filter_cons]
    rw [filter_orderedInsert p a _ hs]
    by_cases hpa : p a <;> simp [hpa, ih, List.insertionSort]

theorem getUserTodos_filter (db : List TodoR) (uid : Nat) (q : TodoR → Bool) :
    getUserTodos (db.filter q) uid = (getUserTodos db uid).filter q := by
  unfold getUserTodos
  rw [filter_insertionSort]
  refine congrArg (fun l => List.insertionSort idLe l) ?_
  rw [List.filter_filter, List.filter_filter]
  exact List.filter_congr (fun a _ => Bool.and_comm _ _)

theorem sorted_getUserTodos (db : List TodoR) (uid : Nat) :
    (getUserTodos db uid).Sorted idLe :=
  List.sorted_insertionSort idLe _

theorem nodup_ids_getUserTodos (db : List TodoR) (uid : Nat)
    (hids : (db.map (·.id)).Nodup) :
    ((getUserTodos db uid).map (·.id)).Nodup := by
  have hperm : List.Perm (getUserTodos db uid) (db.filter (fun td => td.user_id == uid)) :=
    List.perm_insertionSort idLe _
  have hsub : ((db.filter (fun td => td.user_id == uid)).map (·.id)).Sublist
      (db.map (·.id)) := List.Sublist.map _ (List.filter_sublist db)
  exact ((hperm.map (·.id)).nodup_iff).mpr (hsub.nodup hids)

theorem sortedSetI_singleton (x : Int) : sortedSetI [x] = [x] := by
  have hd : List.dedup [x] = [x] := by
    rw [List.dedup_cons_of_not_mem (by simp)]
    rfl
  simp [sortedSetI, hd, List.insertionSort]

/-- **C2.** Local numbering: for every user, `_get_user_todos` lists the
surviving todos in ascending storage-id order (so local number `N` is the
`N`-th oldest survivor); `_resolve_many_local_to_db_ids` maps local `N`
to the id of the `N`-th element of that freshly fetched list; and after
deleting local todo 2 of 3, resolving local 2 against the resulting store
yields the todo that was previously local 3 — the resolution is recomputed
from the current store, never cached. -/
theorem c2_local_numbering (db : List TodoR) (uid : Nat)
    (hids : (db.map (·.id)).Nodup) :
    (getUserTodos db uid).Sorted idLe
    ∧ (∀ (n : Nat) (td : TodoR), 1 ≤ n →
        (getUserTodos db uid).get? (n - 1) = some td →
        resolveManyLocalToDbIds db uid [(n : Int)] = [td.id])
    ∧ (∀ a b c : TodoR, getUserTodos db uid = [a, b, c] →
        resolveManyLocalToDbIds (deleteById db b.id) uid [2] = [c.id]) := by
  refine ⟨sorted_getUserTodos db uid, fun n td h1 hget => ?_, fun a b c heq => ?_⟩
  · obtain ⟨hlt, _⟩ := List.get?_eq_some.mp hget
    simp only [resolveManyLocalToDbIds, sortedSetI_singleton, List.filterMap_cons,
      List.filterMap_nil]
    rw [if_pos ⟨by exact_mod_cast h1, by omega⟩]
    have ht : ((n : Int) - 1).toNat = n - 1 := by omega
    rw [ht, hget]
    rfl
  · have hnd := nodup_ids_getUserTodos db uid hids
    rw [heq] at hnd
    simp only [List.map_cons, List.map_nil, List.nodup_cons] at hnd
    have hab : a.id ≠ b.id := fun h => hnd.1 (by simp [h])
    have hcb : c.id ≠ b.id := fun h => hnd.2.1 (by simp [h])
    have hdel : getUserTodos (deleteById db b.id) uid = [a, c] := by
      unfold deleteById
      rw [getUserTodos_filter, heq]
      simp [List.filter_cons, hab, hcb]
    simp only [resolveManyLocalToDbIds, hdel, sortedSetI_singleton]
    norm_num
    rfl

/-- Witness for C2: a three-todo store for user `0`; deleting the todo with
id `2` (local 2) makes local 2 resolve to id `3` (previously local 3). -/
theorem c2_witness :
    (([⟨1, 0, "a", none, false⟩, ⟨2, 0, "b", none, false⟩,
       ⟨3, 0, "c", none, false⟩] : List TodoR).map (·.id)).Nodup
    ∧ resolveManyLocalToDbIds
        (deleteById [⟨1, 0, "a", none, false⟩, ⟨2, 0, "b", none, false⟩,
          ⟨3, 0, "c", none, false⟩] 2) 0 [2] = [3] :=
  ⟨by decide,
   (c2_local_numbering [⟨1, 0, "a", none, false⟩, ⟨2, 0, "b", none, false⟩,
       ⟨3, 0, "c", none, false⟩] 0 (by decide)).2.2
     ⟨1, 0, "a", none, false⟩ ⟨2, 0, "b", none, false⟩ ⟨3, 0, "c", none, false⟩
     (by decide)⟩

/-! ### Claim C6 — range-and-list extraction -/

theorem mem_sortedSet {x : Nat} {l : List Nat} : x ∈ sortedSet l ↔ x ∈ l := by
  unfold sortedSet
  rw [List.mem_insertionSort, List.mem_dedup]

theorem sorted_lt_sortedSet (l : List Nat) : List.Sorted (· < ·) (sortedSet l) := by
  have hs : List.Sorted (· ≤ ·) (sortedSet l) :=
    List.sorted_insertionSort (· ≤ ·) l.dedup
  have hnd : (sortedSet l).Nodup :=
    ((List.perm_insertionSort (· ≤ ·) l.dedup).nodup_iff).mpr (List.nodup_dedup l)
  exact (List.Pairwise.and hs hnd).imp (fun h => lt_of_le_of_ne h.1 h.2)

theorem mem_expandRange {x : Nat} (ab : Nat × Nat) :
    x ∈ expandRange ab ↔ min ab.1 ab.2 ≤ x ∧ x ≤ max ab.1 ab.2 := by
  unfold expandRange rangeList
  split <;> simp [List.mem_range'_1] <;> omega

/-- **C6.** `_extract_ranges_and_lists` returns exactly the integers covered
by some `"A to B"` / `"A-B"` range match (inclusive and order-insensitive:
a reversed range still denotes the full inclusive interval) together with
every bare integer token, deduplicated and sorted strictly ascending; in
particular both `"todos 1-3"` and `"todos 3-1"` extract to `[1, 2, 3]`. -/
theorem c6_ranges_and_lists :
    (∀ (text : List Char) (x : Nat), x ∈ extractRangesAndLists text ↔
      ((∃ p ∈ rangePairsOf text, min p.1 p.2 ≤ x ∧ x ≤ max p.1 p.2)
        ∨ x ∈ extractAllInts (lowerL text)))
    ∧ (∀ text : List Char, List.Sorted (· < ·) (extractRangesAndLists text))
    ∧ extractRangesAndLists "todos 1-3".toList = [1, 2, 3]
    ∧ extractRangesAndLists "todos 3-1".toList = [1, 2, 3] := by
  refine ⟨fun text x => ?_, fun text => sorted_lt_sortedSet _, by decide, by decide⟩
  unfold extractRangesAndLists
  rw [mem_sortedSet]
  simp only [List.mem_append, List.mem_flatten, List.mem_map]
  constructor
  · rintro (⟨_, ⟨p, hp, rfl⟩, hx⟩ | hx)
    · exact Or.inl ⟨p, hp, (mem_expandRange p).mp hx⟩
    · exact Or.inr hx
  · rintro (⟨p, hp, hx⟩ | hx)
    · exact Or.inl ⟨expandRange p, ⟨p, hp, rfl⟩, (mem_expandRange p).mpr hx⟩
    · exact Or.inr hx

/-! ### Claim C8 — write-verb exclusion of the list rule -/

/-- **C8.** When the lowercased message starts with one of the write verbs,
the list/show-with-filters rule never fires, whatever keywords the message
contains; in particular `"add a todo"` parses to an `add` action (with
title `"a todo"`), not to a `list` action. -/
theorem c8_write_verb_excludes_list (raw t : List Char)
    (h : startsWithAny t writeVerbs = true) :
    ruleListShow raw t = none
    ∧ parse_intent_fast "add a todo" =
        [(Act.add, { title := some "a todo", description := none })] := by
  constructor
  · simp [ruleListShow, h]
  · decide

/-- Witness for C8 at `t = "add x"`. -/
theorem c8_witness :
    startsWithAny "add x".toList writeVerbs = true
    ∧ ruleListShow [] "add x".toList = none :=
  ⟨by decide, (c8_write_verb_excludes_list [] "add x".toList (by decide)).1⟩

/-! ### Claims C9 and C10 — per-rule facts about the cascade -/

/-- A rule only ever fires with a non-empty action list. -/
def okO (o : Option (List Parsed)) : Prop := ∀ r, o = some r → r ≠ []

/-- A rule never produces a `delete_filtered` action. -/
def noDF (o : Option (List Parsed)) : Prop :=
  ∀ r, o = some r → Act.delete_filtered ∉ r.map Prod.fst

theorem ruleStatus1_ok (raw t : List Char) : okO (ruleStatus1 raw t) := by
  intro r h
  unfold ruleStatus1 at h
  repeat' split at h
  all_goals first
    | exact Option.noConfusion h
    | (injection h with h; subst h; simp [showTail]; done)
    | (injection h with h; subst h; simp only [showTail, ne_eq];
        (repeat' split) <;> (simp [showTail]; done))
    | (injection h with h; subst h; simp only [ne_eq];
        (repeat' split) <;> (simp_all; done))
    | (injection h with h; subst h; (repeat' split) <;> (simp_all; done))

theorem ruleStatus2_ok (raw t : List Char) : okO (ruleStatus2 raw t) := by
  intro r h
  unfold ruleStatus2 at h
  repeat' split at h
  all_goals first
    | exact Option.noConfusion h
    | (injection h with h; subst h; simp [showTail]; done)
    | (injection h with h; subst h; simp only [showTail, ne_eq];
        (repeat' split) <;> (simp [showTail]; done))
    | (injection h with h; subst h; simp only [ne_eq];
        (repeat' split) <;> (simp_all; done))
    | (injection h with h; subst h; (repeat' split) <;> (simp_all; done))

theorem ruleLatest_ok (raw t : List Char) : okO (ruleLatest raw t) := by
  intro r h
  unfold ruleLatest at h
  repeat' split at h
  all_goals first
    | exact Option.noConfusion h
    | (injection h with h; subst h; simp [showTail]; done)
    | (injection h with h; subst h; simp only [showTail, ne_eq];
        (repeat' split) <;> (simp [showTail]; done))
    | (injection h with h; subst h; simp only [ne_eq];
        (repeat' split) <;> (simp_all; done))
    | (injection h with h; subst h; (repeat' split) <;> (simp_all; done))

theorem ruleShowOne_ok (raw t : List Char) : okO (ruleShowOne raw t) := by
  intro r h
  unfold ruleShowOne at h
  repeat' split at h
  all_goals first
    | exact Option.noConfusion h
    | (injection h with h; subst h; simp [showTail]; done)
    | (injection h with h; subst h; simp only [showTail, ne_eq];
        (repeat' split) <;> (simp [showTail]; done))
    | (injection h with h; subst h; simp only [ne_eq];
        (repeat' split) <;> (simp_all; done))
    | (injection h with h; subst h; (repeat' split) <;> (simp_all; done))

theorem ruleFirstN_ok (raw t : List Char) : okO (ruleFirstN raw t) := by
  intro r h
  unfold ruleFirstN at h
  repeat' split at h
  all_goals first
    | exact Option.noConfusion h
    | (injection h with h; subst h; simp [showTail]; done)
    | (injection h with h; subst h; simp only [showTail, ne_eq];
        (repeat' split) <;> (simp [showTail]; done))
    | (injection h with h; subst h; simp only [ne_eq];
        (repeat' split) <;> (simp_all; done))
    | (injection h with h; subst h; (repeat' split) <;> (simp_all; done))

theorem ruleWhich_ok (raw t : List Char) : okO (ruleWhich raw t) := by
  intro r h
  unfold ruleWhich at h
  repeat' split at h
  all_goals first
    | exact Option.noConfusion h
    | (injection h with h; subst h; simp [showTail]; done)
    | (injection h with h; subst h; simp only [showTail, ne_eq];
        (repeat' split) <;> (simp [showTail]; done))
    | (injection h with h; subst h; simp only [ne_eq];
        (repeat' split) <;> (simp_all; done))
    | (injection h with h; subst h; (repeat' split) <;> (simp_all; done))

theorem ruleFind_ok (raw t : List Char) : okO (ruleFind raw t) := by
  intro r h
  unfold ruleFind at h
  repeat' split at h
  all_goals first
    | exact Option.noConfusion h
    | (injection h with h; subst h; simp [showTail]; done)
    | (injection h with h; subst h; simp only [showTail, ne_eq];
        (repeat' split) <;> (simp [showTail]; done))
    | (injection h with h; subst h; simp only [ne_eq];
        (repeat' split) <;> (simp_all; done))
    | (injection h with h; subst h; (repeat' split) <;> (simp_all; done))

theorem ruleDeleteAll_ok (raw t : List Char) : okO (ruleDeleteAll raw t) := by
  intro r h
  unfold ruleDeleteAll at h
  repeat' split at h
  all_goals first
    | exact Option.noConfusion h
    | (injection h with h; subst h; simp [showTail]; done)
    | (injection h with h; subst h; simp only [showTail, ne_eq];
        (repeat' split) <;> (simp [showTail]; done))
    | (injection h with h; subst h; simp only [ne_eq];
        (repeat' split) <;> (simp_all; done))
    | (injection h with h; subst h; (repeat' split) <;> (simp_all; done))

theorem ruleDeleteFiltered_ok (raw t : List Char) : okO (ruleDeleteFiltered raw t) := by
  intro r h
  unfold ruleDeleteFiltered at h
  repeat' split at h
  all_goals first
    | exact Option.noConfusion h
    | (injection h with h; subst h; simp [showTail]; done)
    | (injection h with h; subst h; simp only [showTail, ne_eq];
        (repeat' split) <;> (simp [showTail]; done))
    | (injection h with h; subst h; simp only [ne_eq];
        (repeat' split) <;> (simp_all; done))
    | (injection h with h; subst h; (repeat' split) <;> (simp_all; done))

theorem ruleCount_ok (raw t : List Char) : okO (ruleCount raw t) := by
  intro r h
  unfold ruleCount at h
  repeat' split at h
  all_goals first
    | exact Option.noConfusion h
    | (injection h with h; subst h; simp [showTail]; done)
    | (injection h with h; subst h; simp only [showTail, ne_eq];
        (repeat' split) <;> (simp [showTail]; done))
    | (injection h with h; subst h; simp only [ne_eq];
        (repeat' split) <;> (simp_all; done))
    | (injection h with h; subst h; (repeat' split) <;> (simp_all; done))

theorem ruleSummary_ok (raw t : List Char) : okO (ruleSummary raw t) := by
  intro r h
  unfold ruleSummary at h
  repeat' split at h
  all_goals first
    | exact Option.noConfusion h
    | (injection h with h; subst h; simp [showTail]; done)
    | (injection h with h; subst h; simp only [showTail, ne_eq];
        (repeat' split) <;> (simp [showTail]; done))
    | (injection h with h; subst h; simp only [ne_eq];
        (repeat' split) <;> (simp_all; done))
    | (injection h with h; subst h; (repeat' split) <;> (simp_all; done))

theorem ruleDetails_ok (raw t : List Char) : okO (ruleDetails raw t) := by
  intro r h
  unfold ruleDetails at h
  repeat' split at h
  all_goals first
    | exact Option.noConfusion h
    | (injection h with h; subst h; simp [showTail]; done)
    | (injection h with h; subst h; simp only [showTail, ne_eq];
        (repeat' split) <;> (simp [showTail]; done))
    | (injection h with h; subst h; simp only [ne_eq];
        (repeat' split) <;> (simp_all; done))
    | (injection h with h; subst h; (repeat' split) <;> (simp_all; done))

theorem ruleListShow_ok (raw t : List Char) : okO (ruleListShow raw t) := by
  intro r h
  unfold ruleListShow at h
  repeat' split at h
  all_goals first
    | exact Option.noConfusion h
    | (injection h with h; subst h; simp [showTail]; done)
    | (injection h with h; subst h; simp only [showTail, ne_eq];
        (repeat' split) <;> (simp [showTail]; done))
    | (injection h with h; subst h; simp only [ne_eq];
        (repeat' split) <;> (simp_all; done))
    | (injection h with h; subst h; (repeat' split) <;> (simp_all; done))

theorem ruleAdd_ok (raw t : List Char) : okO (ruleAdd raw t) := by
  intro r h
  unfold ruleAdd at h
  repeat' split at h
  all_goals first
    | exact Option.noConfusion h
    | (injection h with h; subst h; simp [showTail]; done)
    | (injection h with h; subst h; simp only [showTail, ne_eq];
        (repeat' split) <;> (simp [showTail]; done))
    | (injection h with h; subst h; simp only [ne_eq];
        (repeat' split) <;> (simp_all; done))
    | (injection h with h; subst h; (repeat' split) <;> (simp_all; done))

theorem ruleMark_ok (raw t : List Char) : okO (ruleMark raw t) := by
  intro r h
  unfold ruleMark at h
  repeat' split at h
  all_goals first
    | exact Option.noConfusion h
    | (injection h with h; subst h; simp [showTail]; done)
    | (injection h with h; subst h; simp only [showTail, ne_eq];
        (repeat' split) <;> (simp [showTail]; done))
    | (injection h with h; subst h; simp only [ne_eq];
        (repeat' split) <;> (simp_all; done))
    | (injection h with h; subst h; (repeat' split) <;> (simp_all; done))

theorem ruleDelete_ok (raw t : List Char) : okO (ruleDelete raw t) := by
  intro r h
  unfold ruleDelete at h
  repeat' split at h
  all_goals first
    | exact Option.noConfusion h
    | (injection h with h; subst h; simp [showTail]; done)
    | (injection h with h; subst h; simp only [showTail, ne_eq];
        (repeat' split) <;> (simp [showTail]; done))
    | (injection h with h; subst h; simp only [ne_eq];
        (repeat' split) <;> (simp_all; done))
    | (injection h with h; subst h; (repeat' split) <;> (simp_all; done))

theorem ruleUpdate_ok (raw t : List Char) : okO (ruleUpdate raw t) := by
  intro r h
  unfold ruleUpdate at h
  repeat' split at h
  all_goals first
    | exact Option.noConfusion h
    | (injection h with h; subst h; simp [showTail]; done)
    | (injection h with h; subst h; simp only [showTail, ne_eq];
        (repeat' split) <;> (simp [showTail]; done))
    | (injection h with h; subst h; simp only [ne_eq];
        (repeat' split) <;> (simp_all; done))
    | (injection h with h; subst h; (repeat' split) <;> (simp_all; done))

theorem ruleGroup_ok (raw t : List Char) : okO (ruleGroup raw t) := by
  intro r h
  unfold ruleGroup at h
  repeat' split at h
  all_goals first
    | exact Option.noConfusion h
    | (injection h with h; subst h; simp [showTail]; done)
    | (injection h with h; subst h; simp only [showTail, ne_eq];
        (repeat' split) <;> (simp [showTail]; done))
    | (injection h with h; subst h; simp only [ne_eq];
        (repeat' split) <;> (simp_all; done))
    | (injection h with h; subst h; (repeat' split) <;> (simp_all; done))

theorem ruleUndo_ok (raw t : List Char) : okO (ruleUndo raw t) := by
  intro r h
  unfold ruleUndo at h
  repeat' split at h
  all_goals first
    | exact Option.noConfusion h
    | (injection h with h; subst h; simp [showTail]; done)
    | (injection h with h; subst h; simp only [showTail, ne_eq];
        (repeat' split) <;> (simp [showTail]; done))
    | (injection h with h; subst h; simp only [ne_eq];
        (repeat' split) <;> (simp_all; done))
    | (injection h with h; subst h; (repeat' split) <;> (simp_all; done))

theorem ruleStatus1_noDF (raw t : List Char) : noDF (ruleStatus1 raw t) := by
  intro r h
  unfold ruleStatus1 at h
  repeat' split at h
  all_goals first
    | exact Option.noConfusion h
    | (injection h with h; subst h; simp only [showTail]; (repeat' split) <;> (simp [listAllAct]; done))
    | (injection h with h; subst h; (repeat' split) <;> (simp [listAllAct]; done))
    | (injection h with h; subst h; simp; done)

theorem ruleStatus2_noDF (raw t : List Char) : noDF (ruleStatus2 raw t) := by
  intro r h
  unfold ruleStatus2 at h
  repeat' split at h
  all_goals first
    | exact Option.noConfusion h
    | (injection h with h; subst h; simp only [showTail]; (repeat' split) <;> (simp [listAllAct]; done))
    | (injection h with h; subst h; (repeat' split) <;> (simp [listAllAct]; done))
    | (injection h with h; subst h; simp; done)

theorem ruleLatest_noDF (raw t : List Char) : noDF (ruleLatest raw t) := by
  intro r h
  unfold ruleLatest at h
  repeat' split at h
  all_goals first
    | exact Option.noConfusion h
    | (injection h with h; subst h; simp only [showTail]; (repeat' split) <;> (simp [listAllAct]; done))
    | (injection h with h; subst h; (repeat' split) <;> (simp [listAllAct]; done))
    | (injection h with h; subst h; simp; done)

theorem ruleShowOne_noDF (raw t : List Char) : noDF (ruleShowOne raw t) := by
  intro r h
  unfold ruleShowOne at h
  repeat' split at h
  all_goals first
    | exact Option.noConfusion h
    | (injection h with h; subst h; simp only [showTail]; (repeat' split) <;> (simp [listAllAct]; done))
    | (injection h with h; subst h; (repeat' split) <;> (simp [listAllAct]; done))
    | (injection h with h; subst h; simp; done)

theorem ruleFirstN_noDF (raw t : List Char) : noDF (ruleFirstN raw t) := by
  intro r h
  unfold ruleFirstN at h
  repeat' split at h
  all_goals first
    | exact Option.noConfusion h
    | (injection h with h; subst h; simp only [showTail]; (repeat' split) <;> (simp [listAllAct]; done))
    | (injection h with h; subst h; (repeat' split) <;> (simp [listAllAct]; done))
    | (injection h with h; subst h; simp; done)

theorem ruleWhich_noDF (raw t : List Char) : noDF (ruleWhich raw t) := by
  intro r h
  unfold ruleWhich at h
  repeat' split at h
  all_goals first
    | exact Option.noConfusion h
    | (injection h with h; subst h; simp only [showTail]; (repeat' split) <;> (simp [listAllAct]; done))
    | (injection h with h; subst h; (repeat' split) <;> (simp [listAllAct]; done))
    | (injection h with h; subst h; simp; done)

theorem ruleFind_noDF (raw t : List Char) : noDF (ruleFind raw t) := by
  intro r h
  unfold ruleFind at h
  repeat' split at h
  all_goals first
    | exact Option.noConfusion h
    | (injection h with h; subst h; simp only [showTail]; (repeat' split) <;> (simp [listAllAct]; done))
    | (injection h with h; subst h; (repeat' split) <;> (simp [listAllAct]; done))
    | (injection h with h; subst h; simp; done)

theorem okO_orElse {a b : Option (List Parsed)} (ha : okO a) (hb : okO b) :
    okO (a <|> b) := by
  intro r h
  cases a with
  | none => exact hb r (by simpa using h)
  | some v => exact ha r (by simpa using h)

theorem getD_okO {o : Option (List Parsed)} (ho : okO o) {d : List Parsed}
    (hd : d ≠ []) : o.getD d ≠ [] := by
  cases o with
  | none => simpa using hd
  | some v => simpa using ho v rfl

/-- `parse_intent_fast` always returns at least one action. -/
theorem parse_intent_fast_ne (s : String) : parse_intent_fast s ≠ [] := by
  simp only [parse_intent_fast]
  exact getD_okO
    (okO_orElse (ruleStatus1_ok _ _) (okO_orElse (ruleStatus2_ok _ _)
      (okO_orElse (ruleLatest_ok _ _) (okO_orElse (ruleShowOne_ok _ _)
      (okO_orElse (ruleFirstN_ok _ _) (okO_orElse (ruleWhich_ok _ _)
      (okO_orElse (ruleFind_ok _ _) (okO_orElse (ruleDeleteAll_ok _ _)
      (okO_orElse (ruleDeleteFiltered_ok _ _) (okO_orElse (ruleCount_ok _ _)
      (okO_orElse (ruleSummary_ok _ _) (okO_orElse (ruleDetails_ok _ _)
      (okO_orElse (ruleListShow_ok _ _) (okO_orElse (ruleAdd_ok _ _)
      (okO_orElse (ruleMark_ok _ _) (okO_orElse (ruleDelete_ok _ _)
      (okO_orElse (ruleUpdate_ok _ _) (okO_orElse (ruleGroup_ok _ _)
        (ruleUndo_ok _ _)))))))))))))))))))
    (by simp)

/-- No rule of the cascade fires on the (normalised) message `s`. -/
def noRuleMatches (s : String) : Prop :=
  ruleStatus1 (normRaw s) (lowerL (normRaw s)) = none
  ∧ ruleStatus2 (normRaw s) (lowerL (normRaw s)) = none
  ∧ ruleLatest (normRaw s) (lowerL (normRaw s)) = none
  ∧ ruleShowOne (normRaw s) (lowerL (normRaw s)) = none
  ∧ ruleFirstN (normRaw s) (lowerL (normRaw s)) = none
  ∧ ruleWhich (normRaw s) (lowerL (normRaw s)) = none
  ∧ ruleFind (normRaw s) (lowerL (normRaw s)) = none
  ∧ ruleDeleteAll (normRaw s) (lowerL (normRaw s)) = none
  ∧ ruleDeleteFiltered (normRaw s) (lowerL (normRaw s)) = none
  ∧ ruleCount (normRaw s) (lowerL (normRaw s)) = none
  ∧ ruleSummary (normRaw s) (lowerL (normRaw s)) = none
  ∧ ruleDetails (normRaw s) (lowerL (normRaw s)) = none
  ∧ ruleListShow (normRaw s) (lowerL (normRaw s)) = none
  ∧ ruleAdd (normRaw s) (lowerL (normRaw s)) = none
  ∧ ruleMark (normRaw s) (lowerL (normRaw s)) = none
  ∧ ruleDelete (normRaw s) (lowerL (normRaw s)) = none
  ∧ ruleUpdate (normRaw s) (lowerL (normRaw s)) = none
  ∧ ruleGroup (normRaw s) (lowerL (normRaw s)) = none
  ∧ ruleUndo (normRaw s) (lowerL (normRaw s)) = none

/-- **C9.** The fast parser returns a non-empty action sequence on every
input (each rule of the cascade returns at least one action), and a message
matching no rule yields exactly `[unknown]`. -/
theorem c9_nonempty_and_unknown :
    (∀ s : String, parse_intent_fast s ≠ [])
    ∧ (∀ s : String, noRuleMatches s →
        parse_intent_fast s = [(Act.unknown, {})]) := by
  refine ⟨parse_intent_fast_ne, fun s h => ?_⟩
  obtain ⟨h1, h2, h3, h4, h5, h6, h7, h8, h9, h10, h11, h12, h13, h14, h15,
    h16, h17, h18, h19⟩ := h
  simp only [parse_intent_fast]
  rw [h1, h2, h3, h4, h5, h6, h7, h8, h9, h10, h11, h12, h13, h14, h15, h16,
    h17, h18, h19]
  rfl

/-- Witness for C9: no rule matches `"hello"` and it parses to `[unknown]`. -/
theorem c9_witness :
    noRuleMatches "hello" ∧ parse_intent_fast "hello" = [(Act.unknown, {})] := by
  have hn : noRuleMatches "hello" := by
    unfold noRuleMatches
    exact ⟨rfl, rfl, rfl, rfl, rfl, rfl, rfl, rfl, rfl, rfl, rfl, rfl, rfl,
      rfl, rfl, rfl, rfl, rfl, rfl⟩
  exact ⟨hn, c9_nonempty_and_unknown.2 "hello" hn⟩

/-! ### Claim C10 — delete-all priority (corrected) -/

/-- **C10, counterexample.** Not every message containing `"delete all"`
parses to `[delete_all]`: an earlier rule may intercept it. The message
`"last todo delete all"` contains `"delete all"` yet hits the latest-todo
rule, parsing to a `details` action. -/
theorem c10_counterexample :
    containsSub (lowerL (normRaw "last todo delete all")) "delete all".toList = true
    ∧ parse_intent_fast "last todo delete all" = [(Act.details, { ordinal := some (-1) })]
    ∧ [(Act.details, ({ ordinal := some (-1) } : Payload))] ≠
        [(Act.delete_all, ({} : Payload))] :=
  ⟨by decide, by decide, by decide⟩

theorem noDF_step {a rest : Option (List Parsed)} {d : List Parsed}
    (ha : noDF a)
    (hrest : Act.delete_filtered ∉ (rest.getD d).map Prod.fst) :
    Act.delete_filtered ∉ ((a <|> rest).getD d).map Prod.fst := by
  cases a with
  | none => simpa using hrest
  | some v => simpa using ha v rfl

/-- **C10, amended.** Whenever the delete-all rule is consulted on a
message containing `"delete all"` it fires with exactly `[delete_all]`
(so the phrases `"delete all completed"` / `"delete all pending"` parse to
`[delete_all]`, making the `delete_filtered` rule's checks for those two
phrases unreachable), and the fast parser never emits a `delete_filtered`
action for any message containing `"delete all"` — a `delete_filtered`
can only arise from phrasings that omit `"all"`, such as
`"delete completed"`. Unlike the original claim, messages containing
`"delete all"` that an earlier rule intercepts (e.g. the latest-todo rule)
do not parse to `[delete_all]`. -/
theorem c10_delete_all_priority :
    (∀ (t raw : List Char), containsSub t "delete all".toList = true →
      ruleDeleteAll raw t = some [(Act.delete_all, {})])
    ∧ parse_intent_fast "delete all completed" = [(Act.delete_all, {})]
    ∧ parse_intent_fast "delete all pending" = [(Act.delete_all, {})]
    ∧ parse_intent_fast "delete completed" = [(Act.delete_filtered, { filter := some "completed" })]
    ∧ (∀ s : String, containsSub (lowerL (normRaw s)) "delete all".toList = true →
        Act.delete_filtered ∉ (parse_intent_fast s).map Prod.fst) := by
  have key : ∀ (t raw : List Char), containsSub t "delete all".toList = true →
      ruleDeleteAll raw t = some [(Act.delete_all, {})] := by
    intro t raw h
    have hc : containsAny t ["delete all".toList, "clear my todo".toList,
        "clear my list".toList, "remove everything".toList,
        "delete everything".toList] = true := by
      unfold containsAny
      rw [List.any_cons, h]
      rfl
    unfold ruleDeleteAll
    rw [if_pos hc]
  refine ⟨key, by decide, by decide, by decide, fun s h => ?_⟩
  · have hda : ruleDeleteAll (normRaw s) (lowerL (normRaw s)) =
        some [(Act.delete_all, {})] := key _ _ h
    simp only [parse_intent_fast]
    apply noDF_step (ruleStatus1_noDF _ _)
    apply noDF_step (ruleStatus2_noDF _ _)
    apply noDF_step (ruleLatest_noDF _ _)
    apply noDF_step (ruleShowOne_noDF _ _)
    apply noDF_step (ruleFirstN_noDF _ _)
    apply noDF_step (ruleWhich_noDF _ _)
    apply noDF_step (ruleFind_noDF _ _)
    rw [hda]
    simp

/-- Witness for C10: the rule-level fact and the cascade-level fact at
concrete messages containing `"delete all"`. -/
theorem c10_witness :
    (containsSub "please delete all".toList "delete all".toList = true
      ∧ ruleDeleteAll [] "please delete all".toList = some [(Act.delete_all, {})])
    ∧ (containsSub (lowerL (normRaw "delete all completed")) "delete all".toList = true
      ∧ Act.delete_filtered ∉
          (parse_intent_fast "delete all completed").map Prod.fst) :=
  ⟨⟨by decide, c10_delete_all_priority.1 "please delete all".toList [] (by decide)⟩,
   ⟨by decide, c10_delete_all_priority.2.2.2.2 "delete all completed" (by decide)⟩⟩
